import Mathlib

/-!
Verification of the portfolio content-aggregation build step.

The repository has two independent pipelines that both emit a JSON manifest
of project records:

* the filesystem pipeline (`buildProjectsJson` in the build script): walks a
  projects directory, reads a `project.yml` sidecar per subdirectory, scans
  media assets, resolves technology icons, sorts and writes;
* the database pipeline (`exportProjectsToJson` in
  `src/tools/export-projects.js`): reads rows from a SQLite `projects` table,
  joins a `technologies` lookup table, and writes the same kind of manifest.

This file is a shallow embedding of both pipelines.  Strings are Lean
`String`s; the handful of JavaScript string methods the code uses
(`split`, `trim`, `toLowerCase`) and SQLite's text collation are modelled by
executable char-list functions below.  Filesystem state is modelled as
explicit directory listings; SQLite state as an explicit `DbState` value.
-/

set_option linter.unusedVariables false

/-! ## String helpers (models of JS string methods, kernel-computable) -/

/-- ASCII whitespace test, modelling the characters `String.prototype.trim`
strips in the inputs at hand. -/
def isWsChar (c : Char) : Bool :=
  c == ' ' || c == '\t' || c == '\n' || c == '\r'

/-- Models JavaScript `s.trim()`: strip leading and trailing whitespace. -/
def trimStr (s : String) : String :=
  String.mk (((s.data.dropWhile isWsChar).reverse.dropWhile isWsChar).reverse)

/-- Split a character list at every occurrence of `sep`, keeping empty
segments, exactly like JavaScript `String.prototype.split` with a
single-character separator (`"".split` yields `[""]`, `",".split(',')`
yields `["",""]`). -/
def splitChars (sep : Char) : List Char → List (List Char)
  | [] => [[]]
  | c :: cs =>
    if c == sep then [] :: splitChars sep cs
    else
      match splitChars sep cs with
      | [] => [[c]]
      | h :: t => (c :: h) :: t

/-- Models JavaScript `s.split(sep)` for a one-character separator. -/
def splitStr (sep : Char) (s : String) : List String :=
  (splitChars sep s.data).map String.mk

/-- ASCII lower-casing of one character, as `String.prototype.toLowerCase`
acts on the ASCII names appearing in this repository. -/
def lowerChar (c : Char) : Char :=
  if 'A' ≤ c && c ≤ 'Z' then Char.ofNat (c.toNat + 32) else c

/-- Models JavaScript `s.toLowerCase()` on ASCII strings. -/
def toLowerStr (s : String) : String :=
  String.mk (s.data.map lowerChar)

/-- Base-10 value of a digit string (used by the date valuation below). -/
def digitsToNat (cs : List Char) : Nat :=
  cs.foldl (fun acc c => acc * 10 + (c.toNat - 48)) 0

/-- Models the `new Date(s).getTime()` valuation that the filesystem
pipeline's sort comparator applies to `end_date` strings: on ISO-format
`YYYY-MM-DD` dates the value is strictly monotone in the calendar date,
which is all the comparator observes. -/
def dateVal (s : String) : Nat :=
  (splitChars '-' s.data).foldl (fun acc p => acc * 10000 + digitsToNat p) 0

/-- Strict lexicographic comparison of char lists by code point; models
SQLite's default (memcmp-style) ordering of TEXT values. -/
def charsLt : List Char → List Char → Bool
  | [], [] => false
  | [], _ :: _ => true
  | _ :: _, [] => false
  | a :: as, b :: bs =>
    if a < b then true else if b < a then false else charsLt as bs

/-- Non-strict lexicographic comparison of char lists by code point. -/
def charsLe : List Char → List Char → Bool
  | [], _ => true
  | _ :: _, [] => false
  | a :: as, b :: bs =>
    if a < b then true else if b < a then false else charsLe as bs

/-! ## Path helpers (models of Node `path` functions on plain file names) -/

/-- Models Node's `path.extname` on plain file names: the last
dot-separated suffix including the dot, `""` when there is no dot or the
only dot is the leading one of a dotfile. -/
def extname (f : String) : String :=
  match splitChars '.' f.data with
  | [] => ""
  | [_] => ""
  | p :: ps => if p.isEmpty && ps.length == 1 then "" else String.mk ('.' :: ps.getLastD [])

/-- Models `path.parse(f).name`: the file name with its extension removed. -/
def fileBaseName (f : String) : String :=
  String.mk (f.data.take (f.data.length - (extname f).data.length))

/-- The public-facing path the filesystem pipeline constructs for an asset:
`/portfolio/projects/<folder>/<file>`. -/
def pubPath (projectName file : String) : String :=
  "/portfolio/projects/" ++ projectName ++ "/" ++ file

/-! ## Filesystem pipeline: data model -/

/-- One entry of the `tech` array produced by the filesystem pipeline. -/
structure TechIcon where
  name : String
  icon : Option String
deriving DecidableEq

/-- One image or video asset descriptor. -/
structure Asset where
  path : String
  thumbnail : Option String
deriving DecidableEq

/-- The parsed contents of a `project.yml` sidecar file.  Every key may be
absent (`none`); `yaml.load` imposes no schema. -/
structure ProjectYaml where
  title : Option String := none
  subtitle : Option String := none
  description : Option String := none
  start_date : Option String := none
  end_date : Option String := none
  tech : Option String := none
  image_layout : Option String := none
  github_url : Option String := none
  live_url : Option String := none
deriving DecidableEq

/-- The assembled project record of the filesystem pipeline. -/
structure Project where
  id : Nat
  title : Option String
  subtitle : Option String
  description : String
  start_date : String
  end_date : String
  tech : List TechIcon
  images : List Asset
  videos : List Asset
  image_layout : String
  github_url : Option String
  live_url : Option String
deriving DecidableEq

/-- Models the JavaScript fallback `v || null`: an absent value or the
falsy empty string becomes `null`. -/
def jsOrNull (v : Option String) : Option String :=
  match v with
  | some s => if s = "" then none else some s
  | none => none

/-- Models the JavaScript fallback `v || d`: an absent value or the falsy
empty string becomes the default `d`. -/
def jsOrDefault (v : Option String) (d : String) : String :=
  match v with
  | some s => if s = "" then d else s
  | none => d

/-! ## Filesystem pipeline: asset scanners and technology resolver -/

/-- The image-extension allow-list of `scanProjectImages`. -/
def imageExtensions : List String := [".jpg", ".jpeg", ".png", ".gif", ".webp", ".svg"]

/-- The video-extension allow-list of `scanProjectVideos`. -/
def videoExtensions : List String := [".mp4", ".webm", ".mov", ".avi", ".mkv"]

/-- The ordered extension list probed for video thumbnails. -/
def thumbnailExtensions : List String := [".jpg", ".jpeg", ".png", ".webp"]

/-- `scanProjectImages`: classify the directory listing by extension
(case-insensitively) and emit one asset descriptor per image file, in
directory order; the thumbnail of an image is its own path. -/
def scanProjectImages (projectName : String) (files : List String) : List Asset :=
  (files.filter (fun f => imageExtensions.contains (toLowerStr (extname f)))).map
    (fun f => { path := pubPath projectName f, thumbnail := some (pubPath projectName f) })

/-- The thumbnail-probing loop inside `scanProjectVideos`: try
`<base>-thumb<ext>` for each extension in order, the first file present in
the directory wins (`fs.existsSync` is modelled as membership in the
directory listing). -/
def findThumbLoop (projectName : String) (files : List String) (base : String) :
    List String → Option String
  | [] => none
  | e :: rest =>
    if files.contains (base ++ "-thumb" ++ e) then
      some (pubPath projectName (base ++ "-thumb" ++ e))
    else findThumbLoop projectName files base rest

/-- `scanProjectVideos`: one asset descriptor per video file, in directory
order, with the thumbnail resolved by `findThumbLoop` (or `none`). -/
def scanProjectVideos (projectName : String) (files : List String) : List Asset :=
  (files.filter (fun f => videoExtensions.contains (toLowerStr (extname f)))).map
    (fun f =>
      { path := pubPath projectName f
        thumbnail := findThumbLoop projectName files (fileBaseName f) thumbnailExtensions })

/-- `processTechString`: split the comma-delimited tech string, trim each
name, drop empty segments, and resolve an icon by probing
`public/icons/<lowercased-name>.svg` then `.png` (`publicFiles` lists the
paths that exist under `public/`). -/
def processTechString (publicFiles : List String) (techString : Option String) :
    List TechIcon :=
  match techString with
  | none => []
  | some s =>
    if s = "" then []
    else
      (((splitStr ',' s).map trimStr).filter (fun t => t != "")).map (fun techName =>
        if publicFiles.contains ("icons/" ++ toLowerStr techName ++ ".svg") then
          { name := techName, icon := some ("/portfolio/icons/" ++ toLowerStr techName ++ ".svg") }
        else if publicFiles.contains ("icons/" ++ toLowerStr techName ++ ".png") then
          { name := techName, icon := some ("/portfolio/icons/" ++ toLowerStr techName ++ ".png") }
        else { name := techName, icon := none })

/-! ## Filesystem pipeline: assembly, sort, and run -/

/-- One entry of the projects root directory: its name, whether it is a
directory, the parse result of its `project.yml` (`none` when the file is
missing or fails to parse), and its file listing. -/
structure FolderEntry where
  name : String
  isDir : Bool
  yaml : Option ProjectYaml
  files : List String
deriving DecidableEq

/-- Assembly of one project record from its sidecar data and directory
contents, exactly as the object literal inside `buildProjectsJson`. -/
def mkProject (publicFiles : List String) (id : Nat) (folderName : String)
    (files : List String) (d : ProjectYaml) : Project :=
  { id := id
    title := d.title
    subtitle := jsOrNull d.subtitle
    description := jsOrDefault d.description ""
    start_date := jsOrDefault d.start_date ""
    end_date := jsOrDefault d.end_date ""
    tech := processTechString publicFiles d.tech
    images := scanProjectImages folderName files
    videos := scanProjectVideos folderName files
    image_layout := jsOrDefault d.image_layout "grid"
    github_url := jsOrNull d.github_url
    live_url := jsOrNull d.live_url }

/-- The enumeration loop of `buildProjectsJson`: walk the folder entries in
order, skip non-directories and directories whose sidecar failed to parse,
and assign `projectId++` (starting at 1) to each emitted record. -/
def assembleGo (publicFiles : List String) : List FolderEntry → Nat → List Project
  | [], _ => []
  | f :: rest, nextId =>
    if f.isDir then
      match f.yaml with
      | some d =>
        mkProject publicFiles nextId f.name f.files d :: assembleGo publicFiles rest (nextId + 1)
      | none => assembleGo publicFiles rest nextId
    else assembleGo publicFiles rest nextId

/-- The assembled (pre-sort) record list of the filesystem pipeline. -/
def assembleProjects (publicFiles : List String) (folders : List FolderEntry) : List Project :=
  assembleGo publicFiles folders 1

/-- The sort comparator of `buildProjectsJson`:
records with no `end_date` sort after all others, otherwise descending by
`new Date(end_date)` (modelled by `dateVal`). -/
def fsCompare (a b : Project) : Int :=
  if a.end_date = "" ∧ b.end_date = "" then 0
  else if a.end_date = "" then 1
  else if b.end_date = "" then -1
  else (dateVal b.end_date : Int) - (dateVal a.end_date : Int)

/-- `a` may precede `b` under the comparator (comparator value `≤ 0`). -/
def fsRel (a b : Project) : Prop := fsCompare a b ≤ 0

instance : DecidableRel fsRel := fun a b => Int.decLe _ _

/-- `projects.sort(comparator)`: JavaScript `Array.prototype.sort` is
stable, modelled by the stable `List.insertionSort`. -/
def sortProjects (ps : List Project) : List Project :=
  List.insertionSort fsRel ps

/-- The observable filesystem state the build script runs against: whether
the projects root exists, its listing (`none` models `readdirSync`
throwing), and the listing of `public/` used for icon probing. -/
structure FsWorld where
  rootExists : Bool
  listing : Option (List FolderEntry)
  publicFiles : List String
deriving DecidableEq

/-- `buildProjectsJson` end to end: the written manifest (`none` when
nothing is written) together with the process exit code.  Every error path
of the script is logged and swallowed (there is no `process.exit` call and
no exception escapes the try/catch), so the exit code is always 0. -/
def buildProjectsJson (w : FsWorld) : Option (List Project) × Nat :=
  if !w.rootExists then (none, 0)
  else
    match w.listing with
    | none => (none, 0)
    | some folders => (some (sortProjects (assembleProjects w.publicFiles folders)), 0)

/-! ## Database pipeline: data model -/

/-- One row of the `technologies` table. -/
structure TechRow where
  id : Nat
  name : String
  icon_path : String
  icon_type : String
  created_at : String
deriving DecidableEq

/-- One row of the `projects` table (nullable columns are `Option`). -/
structure ProjRow where
  id : Nat
  title : String
  description : Option String
  image : Option String
  tech : Option String
  start_date : Option String
  end_date : Option String
  created_at : String
  updated_at : String
deriving DecidableEq

/-- One entry of the `tech` array produced by the database pipeline. -/
structure TechEntry where
  name : String
  icon : Option String
  iconType : Option String
deriving DecidableEq

/-- One output record of the database pipeline: the spread `...project`
carries every column of the row, with `tech` replaced by the resolved
array. -/
structure OutRecord where
  id : Nat
  title : String
  description : Option String
  image : Option String
  start_date : Option String
  end_date : Option String
  created_at : String
  updated_at : String
  tech : List TechEntry
deriving DecidableEq

/-- The nullability flags of the `projects` table columns the migration
check inspects (`PRAGMA table_info` `notnull` of `description`, `image`,
`tech`). -/
structure ProjSchema where
  descriptionNotNull : Bool
  imageNotNull : Bool
  techNotNull : Bool
deriving DecidableEq

/-- The schema of a freshly created `projects` table: those three columns
are nullable. -/
def newProjSchema : ProjSchema := ⟨false, false, false⟩

/-- The legacy-schema detection of the export script: some of
`description`, `image`, `tech` carries a NOT NULL constraint. -/
def hasOldSchema (s : ProjSchema) : Bool :=
  s.descriptionNotNull || s.imageNotNull || s.techNotNull

/-- The `projects` table: its column nullability and its rows. -/
structure ProjectsTable where
  schema : ProjSchema
  rows : List ProjRow
deriving DecidableEq

/-- The SQLite store: each table is `none` when absent. -/
structure DbState where
  projects : Option ProjectsTable
  technologies : Option (List TechRow)
deriving DecidableEq

/-- The fixed technology seed list inserted when the `technologies` table
is empty (ids by AUTOINCREMENT, `created_at` from CURRENT_TIMESTAMP). -/
def initialTechnologies (now : String) : List TechRow :=
  [⟨1, "bash", "/portfolio/icons/bash.svg", "svg", now⟩,
   ⟨2, "c#", "/portfolio/icons/c#.svg", "svg", now⟩,
   ⟨3, "c++", "/portfolio/icons/c++.svg", "svg", now⟩,
   ⟨4, "c", "/portfolio/icons/c.svg", "svg", now⟩,
   ⟨5, "dart", "/portfolio/icons/dart.svg", "svg", now⟩,
   ⟨6, "go", "/portfolio/icons/go.svg", "svg", now⟩,
   ⟨7, "haskell", "/portfolio/icons/haskell.svg", "svg", now⟩,
   ⟨8, "java", "/portfolio/icons/java.svg", "svg", now⟩,
   ⟨9, "javascript", "/portfolio/icons/javascript.svg", "svg", now⟩,
   ⟨10, "kotlin", "/portfolio/icons/kotlin.svg", "svg", now⟩,
   ⟨11, "php", "/portfolio/icons/php.png", "png", now⟩,
   ⟨12, "python", "/portfolio/icons/python.svg", "svg", now⟩,
   ⟨13, "ruby", "/portfolio/icons/ruby.svg", "svg", now⟩,
   ⟨14, "rust", "/portfolio/icons/rust.svg", "svg", now⟩,
   ⟨15, "typescript", "/portfolio/icons/typescript.svg", "svg", now⟩]

/-- The three sample project rows inserted on bootstrap (ids by
AUTOINCREMENT, timestamps from CURRENT_TIMESTAMP). -/
def sampleProjects (now : String) : List ProjRow :=
  [⟨1, "E-Commerce Platform",
    some "A full-stack e-commerce application built with React, Node.js, and MongoDB.",
    some "https://images.unsplash.com/photo-1556742049-0cfed4f6a45d?w=400&h=200&fit=crop",
    some "React,Node.js,MongoDB,Express", some "2024-01-15", some "2024-06-30", now, now⟩,
   ⟨2, "Task Management App",
    some "A collaborative task management tool with real-time updates and team features.",
    some "https://images.unsplash.com/photo-1454165804606-c3d57bc86b40?w=400&h=200&fit=crop",
    some "React,Firebase,Tailwind CSS", some "2024-03-01", some "2024-08-15", now, now⟩,
   ⟨3, "Portfolio Website",
    some "A modern, responsive portfolio website showcasing my work and skills.",
    some "https://images.unsplash.com/photo-1467232004584-a241de8bcf5d?w=400&h=200&fit=crop",
    some "React,Vite,Pico CSS", some "2024-07-01", some "2024-08-24", now, now⟩]

/-- The result of the bootstrap phase of the export script: the store
afterwards, and whether the schema-migration branch ran. -/
structure BootstrapResult where
  state : DbState
  migrated : Bool
deriving DecidableEq

/-- The bootstrap phase of `exportProjectsToJson`, exactly as in the
source: everything — table creation, the `PRAGMA table_info` legacy-schema
check with its migration, the technology seeding and the sample-project
insertion — is nested inside the `if (!tableExists)` branch.  When the
`projects` table already exists the store is returned untouched. -/
def dbBootstrap (st : DbState) (now : String) : BootstrapResult :=
  match st.projects with
  | some _ => ⟨st, false⟩
  | none =>
    let projTable : ProjectsTable := ⟨newProjSchema, []⟩
    let techTable := st.technologies.getD []
    let migrated := hasOldSchema projTable.schema
    let projTable := if migrated then ProjectsTable.mk newProjSchema projTable.rows else projTable
    let techTable := if techTable.length = 0 then initialTechnologies now else techTable
    let projTable : ProjectsTable := ⟨projTable.schema, projTable.rows ++ sampleProjects now⟩
    ⟨⟨some projTable, some techTable⟩, migrated⟩

/-- The sort key of the export query: `CASE WHEN end_date IS NOT NULL THEN
end_date ELSE created_at END`. -/
def dbSortKey (r : ProjRow) : String :=
  match r.end_date with
  | some d => d
  | none => r.created_at

/-- `a` may precede `b` under `ORDER BY key DESC, created_at DESC`
(SQLite TEXT collation modelled by `charsLt`/`charsLe`). -/
def dbRowLe (a b : ProjRow) : Bool :=
  if charsLt (dbSortKey a).data (dbSortKey b).data then false
  else if charsLt (dbSortKey b).data (dbSortKey a).data then true
  else charsLe b.created_at.data a.created_at.data

/-- `dbRowLe` as a relation. -/
def dbRel (a b : ProjRow) : Prop := dbRowLe a b = true

instance : DecidableRel dbRel := fun a b => instDecidableEqBool _ _

/-- The row order produced by the export query's ORDER BY. -/
def dbSortRows (rows : List ProjRow) : List ProjRow :=
  List.insertionSort dbRel rows

/-- The icon lookup map `new Map(technologies.map(t => [t.name.toLowerCase(),
t]))`: lookup by lower-cased name, later rows shadowing earlier ones. -/
def techMapGet (techs : List TechRow) (key : String) : Option TechRow :=
  techs.reverse.find? (fun t => toLowerStr t.name == key)

/-- The tech resolution of the database pipeline: split the row's
comma-delimited tech string (no empty-segment filtering), trim each name,
and look it up case-insensitively in the technologies map. -/
def dbTechWithIcons (techs : List TechRow) (tech : Option String) : List TechEntry :=
  (match tech with
   | some s => if s = "" then [] else splitStr ',' s
   | none => []).map (fun techName =>
    match techMapGet techs (toLowerStr (trimStr techName)) with
    | some td =>
      { name := trimStr techName, icon := some td.icon_path, iconType := some td.icon_type }
    | none => { name := trimStr techName, icon := none, iconType := none })

/-- One output record: the spread `{...project, tech: techWithIcons}`. -/
def exportRecord (techs : List TechRow) (r : ProjRow) : OutRecord :=
  { id := r.id
    title := r.title
    description := r.description
    image := r.image
    start_date := r.start_date
    end_date := r.end_date
    created_at := r.created_at
    updated_at := r.updated_at
    tech := dbTechWithIcons techs r.tech }

/-- `projects.map(...)`: the full output record list. -/
def dbExportRecords (techs : List TechRow) (rows : List ProjRow) : List OutRecord :=
  rows.map (exportRecord techs)

/-- The observable world of the export script: whether the database can be
opened, the store contents, the CURRENT_TIMESTAMP value, and whether the
manifest write succeeds. -/
structure DbWorld where
  openOk : Bool
  state : DbState
  now : String
  writeOk : Bool
deriving DecidableEq

/-- `exportProjectsToJson` end to end: bootstrap, read sorted rows, resolve
technologies, write.  A failure at any step is the thrown exception
(`Except.error`). -/
def exportProjectsToJson (w : DbWorld) : Except String (List OutRecord) :=
  if !w.openOk then Except.error "unable to open database file"
  else
    let boot := dbBootstrap w.state w.now
    let rows := dbSortRows (boot.state.projects.getD ⟨newProjSchema, []⟩).rows
    let techs := boot.state.technologies.getD []
    let out := dbExportRecords techs rows
    if !w.writeOk then Except.error "write failed"
    else Except.ok out

/-- The process exit code of the export script: the top-level catch calls
`process.exit(1)`, the success path falls through to exit 0. -/
def dbExitCode (w : DbWorld) : Nat :=
  match exportProjectsToJson w with
  | Except.ok _ => 0
  | Except.error _ => 1

/-! ## Order-theoretic facts about the two sort comparators -/

theorem charsLt_trans {a : List Char} : ∀ {b c : List Char},
    charsLt a b = true → charsLt b c = true → charsLt a c = true := by
  induction a with
  | nil =>
    intro b c h1 h2
    cases b with
    | nil => simp [charsLt] at h1
    | cons y ys =>
      cases c with
      | nil => simp [charsLt] at h2
      | cons z zs => simp [charsLt]
  | cons x xs ih =>
    intro b c h1 h2
    cases b with
    | nil => simp [charsLt] at h1
    | cons y ys =>
      cases c with
      | nil => simp [charsLt] at h2
      | cons z zs =>
        simp only [charsLt] at h1 h2 ⊢
        by_cases hxy : x < y
        · by_cases hyz : y < z
          · simp [lt_trans hxy hyz]
          · by_cases hzy : z < y
            · simp [hyz, hzy] at h2
            · have hyz2 : y = z := le_antisymm (not_lt.mp hzy) (not_lt.mp hyz)
              subst hyz2
              simp [hxy]
        · by_cases hyx : y < x
          · simp [hxy, hyx] at h1
          · have hxy2 : x = y := le_antisymm (not_lt.mp hyx) (not_lt.mp hxy)
            subst hxy2
            simp [hxy] at h1
            by_cases hyz : x < z
            · simp [hyz]
            · by_cases hzy : z < x
              · simp [hyz, hzy] at h2
              · simp [hyz, hzy] at h2 ⊢
                exact ih h1 h2

theorem charsLt_asymm {a : List Char} : ∀ {b : List Char},
    charsLt a b = true → charsLt b a = false := by
  induction a with
  | nil =>
    intro b h
    cases b with
    | nil => simp [charsLt] at h
    | cons y ys => simp [charsLt]
  | cons x xs ih =>
    intro b h
    cases b with
    | nil => simp [charsLt] at h
    | cons y ys =>
      simp only [charsLt] at h ⊢
      by_cases hxy : x < y
      · simp [hxy, asymm hxy]
      · by_cases hyx : y < x
        · simp [hxy, hyx] at h
        · simp [hxy, hyx] at h ⊢
          exact ih h

theorem charsLt_conn {a : List Char} : ∀ {b : List Char},
    charsLt a b = false → charsLt b a = false → a = b := by
  induction a with
  | nil =>
    intro b h1 h2
    cases b with
    | nil => rfl
    | cons y ys => simp [charsLt] at h1
  | cons x xs ih =>
    intro b h1 h2
    cases b with
    | nil => simp [charsLt] at h2
    | cons y ys =>
      simp only [charsLt] at h1 h2
      by_cases hxy : x < y
      · simp [hxy] at h1
      · by_cases hyx : y < x
        · simp [hxy, hyx] at h2
        · have hxy2 : x = y := le_antisymm (not_lt.mp hyx) (not_lt.mp hxy)
          subst hxy2
          simp [hxy] at h1 h2
          rw [ih h1 h2]

theorem charsLe_eq_not_swap (a : List Char) : ∀ b : List Char,
    charsLe a b = !charsLt b a := by
  induction a with
  | nil =>
    intro b
    cases b with
    | nil => rfl
    | cons y ys => rfl
  | cons x xs ih =>
    intro b
    cases b with
    | nil => rfl
    | cons y ys =>
      simp only [charsLe, charsLt]
      by_cases hxy : x < y
      · simp [hxy, asymm hxy]
      · by_cases hyx : y < x
        · simp [hxy, hyx]
        · simp [hxy, hyx, ih ys]

theorem charsLe_total (a b : List Char) : charsLe a b = true ∨ charsLe b a = true := by
  rw [charsLe_eq_not_swap, charsLe_eq_not_swap]
  by_cases h : charsLt b a = true
  · right
    simp [charsLt_asymm h]
  · left
    simp [Bool.not_eq_true] at h
    simp [h]

theorem charsLe_trans {a b c : List Char}
    (h1 : charsLe a b = true) (h2 : charsLe b c = true) : charsLe a c = true := by
  rw [charsLe_eq_not_swap] at h1 h2 ⊢
  simp only [Bool.not_eq_true'] at h1 h2 ⊢
  rcases Bool.eq_false_or_eq_true (charsLt c a) with hca | hca
  · exfalso
    rcases Bool.eq_false_or_eq_true (charsLt b c) with hbc | hbc
    · have hba : charsLt b a = true := charsLt_trans hbc hca
      simp [h1] at hba
    · have hbc2 : b = c := charsLt_conn hbc h2
      subst hbc2
      simp [h1] at hca
  · exact hca

theorem charsLt_irrefl (a : List Char) : charsLt a a = false := by
  induction a with
  | nil => rfl
  | cons x xs ih => simp [charsLt, lt_irrefl, ih]

theorem dbLexLe_trans {ka kb kc ca cb cc : List Char}
    (h1 : (if charsLt ka kb then false else if charsLt kb ka then true else charsLe cb ca) = true)
    (h2 : (if charsLt kb kc then false else if charsLt kc kb then true else charsLe cc cb) = true) :
    (if charsLt ka kc then false else if charsLt kc ka then true else charsLe cc ca) = true := by
  by_cases hab : charsLt ka kb = true
  · simp [hab] at h1
  · by_cases hba : charsLt kb ka = true
    · by_cases hbc : charsLt kb kc = true
      · simp [hbc] at h2
      · by_cases hcb : charsLt kc kb = true
        · have hca : charsLt kc ka = true := charsLt_trans hcb hba
          simp [charsLt_asymm hca, hca]
        · have hkbc : kb = kc := charsLt_conn (by simpa using hbc) (by simpa using hcb)
          subst hkbc
          simp [hab, hba]
    · have hkab : ka = kb := charsLt_conn (by simpa using hab) (by simpa using hba)
      subst hkab
      simp [hab, hba] at h1
      by_cases hbc : charsLt ka kc = true
      · simp [hbc] at h2
      · by_cases hcb : charsLt kc ka = true
        · simp [hbc, hcb]
        · simp [hbc, hcb] at h2 ⊢
          exact charsLe_trans h2 h1

theorem dbLexLe_total (ka kb ca cb : List Char) :
    (if charsLt ka kb then false else if charsLt kb ka then true else charsLe cb ca) = true ∨
    (if charsLt kb ka then false else if charsLt ka kb then true else charsLe ca cb) = true := by
  by_cases hab : charsLt ka kb = true
  · right
    simp [hab, charsLt_asymm hab]
  · by_cases hba : charsLt kb ka = true
    · left
      simp [hab, hba]
    · rcases charsLe_total cb ca with h | h
      · left
        simp [hab, hba, h]
      · right
        simp [hab, hba, h]

theorem dbRel_total : ∀ a b : ProjRow, dbRel a b ∨ dbRel b a :=
  fun a b => dbLexLe_total _ _ _ _

theorem dbRel_trans : ∀ a b c : ProjRow, dbRel a b → dbRel b c → dbRel a c :=
  fun a b c h1 h2 => dbLexLe_trans h1 h2

instance : IsTotal ProjRow dbRel := ⟨dbRel_total⟩

instance : IsTrans ProjRow dbRel := ⟨dbRel_trans⟩

theorem fsCompare_le_iff (a b : Project) :
    fsCompare a b ≤ 0 ↔
      (b.end_date = "" ∨
        (a.end_date ≠ "" ∧ (dateVal b.end_date : Int) ≤ (dateVal a.end_date : Int))) := by
  by_cases ha : a.end_date = "" <;> by_cases hb : b.end_date = "" <;>
    simp [fsCompare, ha, hb] <;> omega

theorem fsRel_total : ∀ a b : Project, fsRel a b ∨ fsRel b a := by
  intro a b
  unfold fsRel
  rw [fsCompare_le_iff, fsCompare_le_iff]
  by_cases ha : a.end_date = "" <;> by_cases hb : b.end_date = "" <;> simp [ha, hb] <;> omega

theorem fsRel_trans : ∀ a b c : Project, fsRel a b → fsRel b c → fsRel a c := by
  intro a b c h1 h2
  unfold fsRel at h1 h2 ⊢
  rw [fsCompare_le_iff] at h1 h2 ⊢
  rcases h2 with hc | ⟨hb, hcb⟩
  · exact Or.inl hc
  · rcases h1 with hb2 | ⟨ha, hba⟩
    · exact absurd hb2 hb
    · exact Or.inr ⟨ha, le_trans hcb hba⟩

instance : IsTotal Project fsRel := ⟨fsRel_total⟩

instance : IsTrans Project fsRel := ⟨fsRel_trans⟩

/-! ## Helper lemmas about assembly -/

theorem assembleGo_length (pf : List String) : ∀ (folders : List FolderEntry) (k : Nat),
    (assembleGo pf folders k).length =
      folders.countP (fun f => f.isDir && f.yaml.isSome) := by
  intro folders
  induction folders with
  | nil => intro k; rfl
  | cons f rest ih =>
    intro k
    by_cases hd : f.isDir = true
    · cases hy : f.yaml with
      | some d => simp [assembleGo, hd, hy, List.countP_cons, ih]
      | none => simp [assembleGo, hd, hy, List.countP_cons, ih]
    · simp [assembleGo, hd, List.countP_cons, ih]

theorem countP_isDir_split (folders : List FolderEntry) :
    folders.countP (fun f => f.isDir) =
      folders.countP (fun f => f.isDir && f.yaml.isSome) +
      folders.countP (fun f => f.isDir && f.yaml.isNone) := by
  induction folders with
  | nil => rfl
  | cons f rest ih =>
    cases hd : f.isDir <;> cases hy : f.yaml <;>
      simp [List.countP_cons, hd, hy, ih] <;> omega

theorem assembleGo_map_id (pf : List String) : ∀ (folders : List FolderEntry) (k : Nat),
    (assembleGo pf folders k).map Project.id =
      List.range' k (assembleGo pf folders k).length := by
  intro folders
  induction folders with
  | nil => intro k; rfl
  | cons f rest ih =>
    intro k
    by_cases hd : f.isDir = true
    · cases hy : f.yaml with
      | some d => simp [assembleGo, hd, hy, List.range'_succ, mkProject, ih (k + 1)]
      | none => simp [assembleGo, hd, hy, ih k]
    · simp [assembleGo, hd, ih k]

/-! ## Concrete fixtures for witnesses and counterexamples -/

/-- A project row with a NULL `end_date` but a recent `created_at`. -/
def cxRowNull : ProjRow :=
  ⟨1, "Side Project", none, none, none, none, none,
   "2025-01-01 00:00:00", "2025-01-01 00:00:00"⟩

/-- A project row with a non-empty `end_date` and an older `created_at`. -/
def cxRowDated : ProjRow :=
  ⟨2, "Old Project", none, none, none, none, some "2024-06-30",
   "2024-01-01 00:00:00", "2024-01-01 00:00:00"⟩

/-- Assembled record with the later end date. -/
def wLate : Project :=
  ⟨1, some "Late", none, "", "", "2021-03-04", [], [], [], "grid", none, none⟩

/-- Assembled record with the earlier end date. -/
def wEarly : Project :=
  ⟨2, some "Early", none, "", "", "2020-01-02", [], [], [], "grid", none, none⟩

/-- Assembled record with no end date. -/
def wUndated : Project :=
  ⟨3, some "Undated", none, "", "", "", [], [], [], "grid", none, none⟩

/-- First record of an end-date tie. -/
def wTie1 : Project :=
  ⟨4, some "Tie1", none, "", "", "2024-05-05", [], [], [], "grid", none, none⟩

/-- Second record of an end-date tie. -/
def wTie2 : Project :=
  ⟨5, some "Tie2", none, "", "", "2024-05-05", [], [], [], "grid", none, none⟩

/-- A projects table in the legacy schema: `description` is NOT NULL. -/
def cxLegacyTable : ProjectsTable := ⟨⟨true, false, false⟩, []⟩

/-- A store whose `projects` table exists with the legacy schema. -/
def cxLegacyState : DbState := ⟨some cxLegacyTable, none⟩

/-- A stored project row whose AUTOINCREMENT id is 42. -/
def cxRow42 : ProjRow :=
  ⟨42, "Solo", none, none, none, none, some "2024-01-01",
   "2024-01-01 00:00:00", "2024-01-01 00:00:00"⟩

/-- A database world whose only stored row has id 42. -/
def cxDbWorld42 : DbWorld :=
  ⟨true, ⟨some ⟨newProjSchema, [cxRow42]⟩, some []⟩, "2025-06-01 00:00:00", true⟩

/-- The manifest the export script writes for `cxDbWorld42`. -/
def cxManifest42 : List OutRecord := dbExportRecords [] (dbSortRows [cxRow42])

/-- A database world where opening the database fails. -/
def cxClosedDb : DbWorld := ⟨false, ⟨none, none⟩, "", true⟩

/-- Folder listing with two project directories, one lacking a sidecar. -/
def wFolders : List FolderEntry :=
  [⟨"good", true, some { title := some "Good" }, []⟩,
   ⟨"broken", true, none, []⟩]

/-- The manifest the build writes for `wFolders`. -/
def wManifest6 : List Project := sortProjects (assembleProjects [] wFolders)

/-- A world whose projects root directory does not exist. -/
def cxNoRoot : FsWorld := ⟨false, some [], []⟩

/-- The image asset descriptor produced for `x.png` in folder `p`. -/
def wImageAsset : Asset :=
  ⟨"/portfolio/projects/p/x.png", some "/portfolio/projects/p/x.png"⟩

/-! ## Claim theorems -/

/-- C1 (amended).  Filesystem pipeline: in the sorted manifest, a record
whose (non-empty) end date is strictly later appears strictly before, every
record with an empty `end_date` appears after every record with a non-empty
one, and pairs tied under the comparator keep their original assignment
order (stable sort).  Database pipeline: the output rows are exactly a
permutation of the stored rows arranged pairwise by `dbRel`, i.e. by
`coalesce(end_date, created_at)` descending with ties by `created_at`
descending — a NULL `end_date` is replaced by `created_at` rather than
ordered last. -/
theorem c1_sort_order (ps : List Project) (rows : List ProjRow) :
    (∀ i j : Fin (sortProjects ps).length,
        ((sortProjects ps).get i).end_date ≠ "" →
        ((sortProjects ps).get j).end_date ≠ "" →
        dateVal ((sortProjects ps).get i).end_date >
          dateVal ((sortProjects ps).get j).end_date →
        (i : Nat) < (j : Nat)) ∧
    (∀ i j : Fin (sortProjects ps).length,
        ((sortProjects ps).get i).end_date = "" →
        ((sortProjects ps).get j).end_date ≠ "" →
        (j : Nat) < (i : Nat)) ∧
    (∀ a b : Project, [a, b].Sublist ps → fsCompare a b = 0 →
        [a, b].Sublist (sortProjects ps)) ∧
    ((dbSortRows rows).Pairwise dbRel ∧ (dbSortRows rows).Perm rows) := by
  have hs : (sortProjects ps).Pairwise fsRel := List.sorted_insertionSort fsRel ps
  have hget := List.pairwise_iff_get.mp hs
  refine ⟨?_, ?_, ?_, ?_, ?_⟩
  · intro i j h1 h2 h3
    rcases Nat.lt_trichotomy (i : Nat) (j : Nat) with h | h | h
    · exact h
    · exact absurd h3 (by rw [Fin.ext h]; exact lt_irrefl _)
    · have hrel : fsRel ((sortProjects ps).get j) ((sortProjects ps).get i) := hget j i h
      rw [fsRel, fsCompare_le_iff] at hrel
      rcases hrel with hc | ⟨hc1, hc2⟩
      · exact absurd hc h1
      · omega
  · intro i j h1 h2
    rcases Nat.lt_trichotomy (i : Nat) (j : Nat) with h | h | h
    · have hrel : fsRel ((sortProjects ps).get i) ((sortProjects ps).get j) := hget i j h
      rw [fsRel, fsCompare_le_iff] at hrel
      rcases hrel with hc | ⟨hc1, hc2⟩
      · exact absurd hc h2
      · exact absurd h1 hc1
    · rw [Fin.ext h] at h1
      exact absurd h1 h2
    · exact h
  · intro a b hsub hcmp
    exact List.pair_sublist_insertionSort (r := fsRel) (le_of_eq hcmp) hsub
  · exact List.sorted_insertionSort dbRel rows
  · exact List.perm_insertionSort dbRel rows

/-- Witness for C1: concrete applications of each part of `c1_sort_order`. -/
theorem c1_sort_order_witness :
    ((0 : Nat) < 1 ∧ (0 : Nat) < 1) ∧
      [wTie1, wTie2].Sublist (sortProjects [wLate, wTie1, wTie2]) := by
  refine ⟨⟨?_, ?_⟩, ?_⟩
  · exact (c1_sort_order [wEarly, wLate] []).1 ⟨0, by decide⟩ ⟨1, by decide⟩
      (by decide) (by decide) (by decide)
  · exact (c1_sort_order [wUndated, wLate] []).2.1 ⟨1, by decide⟩ ⟨0, by decide⟩
      (by decide) (by decide)
  · exact (c1_sort_order [wLate, wTie1, wTie2] []).2.2.1 wTie1 wTie2
      (List.Sublist.cons wLate (List.Sublist.refl [wTie1, wTie2])) (by decide)

/-- Counterexample to C1 as stated: in the database pipeline the ORDER BY
substitutes `created_at` for a NULL `end_date`, so `cxRowNull` (no end
date, created 2025) is emitted BEFORE `cxRowDated` (end date 2024-06-30),
while the claim requires every record with a NULL end date to appear after
all records with a non-empty one. -/
theorem c1_sort_order_counterexample :
    dbSortRows [cxRowDated, cxRowNull] = [cxRowNull, cxRowDated] ∧
      cxRowNull.end_date = none ∧ cxRowDated.end_date = some "2024-06-30" :=
  ⟨by decide, rfl, rfl⟩

/-- C2 (amended).  The filesystem pipeline's tech resolver never emits an
entry with an empty name (empty segments are dropped after trimming), and
on the input `"React, Node.js,  MongoDB"` both pipelines produce exactly
the three trimmed names `"React"`, `"Node.js"`, `"MongoDB"` in order.  (The
database pipeline does NOT drop empty segments in general — see the
counterexample.) -/
theorem c2_tech_parsing :
    (∀ (publicFiles : List String) (ts : Option String) (e : TechIcon),
        e ∈ processTechString publicFiles ts → e.name ≠ "") ∧
    (processTechString [] (some "React, Node.js,  MongoDB")).map TechIcon.name =
      ["React", "Node.js", "MongoDB"] ∧
    (dbTechWithIcons [] (some "React, Node.js,  MongoDB")).map TechEntry.name =
      ["React", "Node.js", "MongoDB"] := by
  refine ⟨?_, by decide, by decide⟩
  intro publicFiles ts e he
  cases ts with
  | none => simp [processTechString] at he
  | some s =>
    by_cases hs : s = ""
    · simp [processTechString, hs] at he
    · rw [processTechString] at he
      simp only [hs, if_false, List.mem_map] at he
      obtain ⟨t, ht, heq⟩ := he
      have hname : e.name = t := by
        rw [← heq]
        split_ifs <;> rfl
      have ht2 := (List.mem_filter.mp ht).2
      rw [hname]
      simpa using ht2

/-- Witness for C2: the no-empty-name part of `c2_tech_parsing` applied at
a concrete input. -/
theorem c2_tech_parsing_witness :
    (⟨"React", none⟩ : TechIcon) ∈ processTechString [] (some "React") ∧
      ("React" : String) ≠ "" :=
  ⟨by decide, c2_tech_parsing.1 [] (some "React") ⟨"React", none⟩ (by decide)⟩

/-- Counterexample to C2 as stated: the database pipeline does not drop
empty segments — on `"React,,MongoDB"` it emits three entries, one of them
with the empty name, where the claim's "dropping empty segments" would
require two. -/
theorem c2_tech_parsing_counterexample :
    (dbTechWithIcons [] (some "React,,MongoDB")).map TechEntry.name =
        ["React", "", "MongoDB"] ∧
      ("" : String) ∈ (dbTechWithIcons [] (some "React,,MongoDB")).map TechEntry.name :=
  ⟨by decide, by decide⟩

/-- C3.  The schema-migration branch of the export script can never run:
the `PRAGMA table_info` nullability check sits inside the `!tableExists`
branch, so it only ever inspects a freshly created table (whose columns
are nullable), and a store whose `projects` table already exists — in
particular one with the legacy NOT NULL schema — is passed through
entirely untouched, with no migration. -/
theorem c3_migration_never_runs :
    (∀ (st : DbState) (now : String), (dbBootstrap st now).migrated = false) ∧
    (∀ (st : DbState) (t : ProjectsTable) (now : String),
        st.projects = some t → dbBootstrap st now = ⟨st, false⟩) := by
  constructor
  · intro st now
    rcases hp : st.projects with _ | t <;> simp [dbBootstrap, hp] <;> rfl
  · intro st t now hp
    simp [dbBootstrap, hp]

/-- Witness for C3: a store with the legacy schema (`description` NOT
NULL) is returned untouched and unmigrated. -/
theorem c3_migration_never_runs_witness :
    dbBootstrap cxLegacyState "2025-06-01 00:00:00" = ⟨cxLegacyState, false⟩ :=
  c3_migration_never_runs.2 cxLegacyState cxLegacyTable "2025-06-01 00:00:00" rfl

/-- C4 (amended).  The filesystem pipeline assigns ids densely as
`1, 2, ..., N` in enumeration order before sorting; the database pipeline
instead carries each row's stored id verbatim into the output record. -/
theorem c4_id_assignment :
    (∀ (publicFiles : List String) (folders : List FolderEntry),
        (assembleProjects publicFiles folders).map Project.id =
          List.range' 1 (assembleProjects publicFiles folders).length) ∧
    (∀ (techs : List TechRow) (rows : List ProjRow),
        (dbExportRecords techs rows).map OutRecord.id = rows.map ProjRow.id) := by
  constructor
  · intro publicFiles folders
    exact assembleGo_map_id publicFiles folders 1
  · intro techs rows
    simp [dbExportRecords, exportRecord]

/-- Counterexample to C4 as stated: run end to end on a store whose single
row has id 42, the database pipeline's manifest has ids `[42]`, not the
dense `[1]` the claim requires. -/
theorem c4_id_assignment_counterexample :
    exportProjectsToJson cxDbWorld42 = Except.ok cxManifest42 ∧
      cxManifest42.map OutRecord.id = [42] ∧
      [42] ≠ List.range' 1 cxManifest42.length :=
  ⟨rfl, by decide, by decide⟩

/-- C5.  The filesystem pipeline's process exit code is 0 on every input
(all errors are logged and swallowed); the database pipeline exits 1
whenever the run throws. -/
theorem c5_exit_codes :
    (∀ w : FsWorld, (buildProjectsJson w).2 = 0) ∧
    (∀ (w : DbWorld) (e : String),
        exportProjectsToJson w = Except.error e → dbExitCode w = 1) := by
  constructor
  · intro w
    by_cases hr : w.rootExists = true
    · cases hl : w.listing <;> simp [buildProjectsJson, hr, hl]
    · have hr2 : w.rootExists = false := by simpa using hr
      simp [buildProjectsJson, hr2]
  · intro w e h
    simp [dbExitCode, h]

/-- Witness for C5: a world where opening the database throws exits 1. -/
theorem c5_exit_codes_witness : dbExitCode cxClosedDb = 1 :=
  c5_exit_codes.2 cxClosedDb "unable to open database file" rfl

/-- C6.  When exactly one folder entry among the candidate directories has
no parseable sidecar, the written manifest has exactly `N - 1` records for
`N` candidate directories: the broken directory is skipped, the others are
kept. -/
theorem c6_missing_sidecar_skipped (publicFiles : List String)
    (folders : List FolderEntry) (m : List Project)
    (h1 : folders.countP (fun f => f.isDir && f.yaml.isNone) = 1)
    (hm : (buildProjectsJson ⟨true, some folders, publicFiles⟩).1 = some m) :
    m.length = folders.countP (fun f => f.isDir) - 1 := by
  simp [buildProjectsJson] at hm
  have hlen : m.length = (assembleProjects publicFiles folders).length := by
    rw [← hm]
    exact (List.perm_insertionSort fsRel (assembleProjects publicFiles folders)).length_eq
  rw [hlen]
  have h2 := assembleGo_length publicFiles folders 1
  have h3 := countP_isDir_split folders
  rw [assembleProjects, h2]
  omega

/-- Witness for C6: a two-directory listing with one missing sidecar
yields a one-record manifest. -/
theorem c6_missing_sidecar_skipped_witness :
    wManifest6.length = wFolders.countP (fun f => f.isDir) - 1 :=
  c6_missing_sidecar_skipped [] wFolders wManifest6 (by decide) rfl

/-- C7.  Video thumbnail resolution: the probing loop returns the public
path of `<base>-thumb<ext>` for the FIRST extension in the fixed ordered
list whose file is present (`List.find?`), and `none` when none is; in
particular `demo.mp4` with sibling `demo-thumb.png` resolves to the
public path of `demo-thumb.png`. -/
theorem c7_video_thumbnails :
    (∀ (projectName base : String) (files exts : List String),
        findThumbLoop projectName files base exts =
          (exts.find? (fun e => files.contains (base ++ "-thumb" ++ e))).map
            (fun e => pubPath projectName (base ++ "-thumb" ++ e))) ∧
    scanProjectVideos "demo-project" ["demo.mp4", "demo-thumb.png"] =
      [⟨"/portfolio/projects/demo-project/demo.mp4",
        some "/portfolio/projects/demo-project/demo-thumb.png"⟩] := by
  refine ⟨?_, by decide⟩
  intro projectName base files exts
  induction exts with
  | nil => rfl
  | cons e rest ih =>
    by_cases h : files.contains (base ++ "-thumb" ++ e) = true
    · rw [findThumbLoop, if_pos (by simpa using h),
        List.find?_cons_of_pos _ (by simpa using h)]
      rfl
    · rw [findThumbLoop, if_neg (by simpa using h), ih,
        List.find?_cons_of_neg _ (by simpa using h)]

/-- C8.  When the projects root directory does not exist, the filesystem
pipeline writes nothing (and still exits 0): the manifest is untouched. -/
theorem c8_missing_root_no_write (w : FsWorld) (h : w.rootExists = false) :
    buildProjectsJson w = (none, 0) := by
  simp [buildProjectsJson, h]

/-- Witness for C8: concrete world without a projects root. -/
theorem c8_missing_root_no_write_witness : buildProjectsJson cxNoRoot = (none, 0) :=
  c8_missing_root_no_write cxNoRoot rfl

/-- C9.  Every image asset descriptor the scanner produces has a non-null
thumbnail equal to its own path. -/
theorem c9_image_thumbnails (projectName : String) (files : List String) (a : Asset)
    (h : a ∈ scanProjectImages projectName files) : a.thumbnail = some a.path := by
  simp [scanProjectImages, List.mem_map] at h
  obtain ⟨f, hf, heq⟩ := h
  rw [← heq]

/-- Witness for C9: the descriptor for `x.png`. -/
theorem c9_image_thumbnails_witness :
    wImageAsset.thumbnail = some wImageAsset.path :=
  c9_image_thumbnails "p" ["x.png"] wImageAsset (by decide)

/-- C10.  A database-pipeline output record carries every column of its
source row verbatim — id, title, description, image, dates and both
timestamps — with only `tech` replaced by the resolved technology array;
consequently the stored timestamps appear verbatim in the manifest. -/
theorem c10_db_columns_carried (techs : List TechRow) (r : ProjRow) :
    (exportRecord techs r).id = r.id ∧
    (exportRecord techs r).title = r.title ∧
    (exportRecord techs r).description = r.description ∧
    (exportRecord techs r).image = r.image ∧
    (exportRecord techs r).start_date = r.start_date ∧
    (exportRecord techs r).end_date = r.end_date ∧
    (exportRecord techs r).created_at = r.created_at ∧
    (exportRecord techs r).updated_at = r.updated_at ∧
    (exportRecord techs r).tech = dbTechWithIcons techs r.tech ∧
    (∀ rows : List ProjRow,
        (dbExportRecords techs rows).map OutRecord.created_at =
          rows.map ProjRow.created_at) := by
  refine ⟨rfl, rfl, rfl, rfl, rfl, rfl, rfl, rfl, rfl, ?_⟩
  intro rows
  simp [dbExportRecords, exportRecord]
